import Mathlib

/-!
Verification of the yggdrasil peer probing and ranking pipeline
(get_peers.py, parse_peers.py, run.py).

The pure data flow of the program is embedded shallowly: network I/O is
abstracted by outcome parameters (each probe or ping call receives the
outcome the network would have produced), and Python exceptions that a
function lets escape are modelled by an Except/Option error value, while
exceptions that the function catches internally are ordinary branches.
-/

/-- The Peer record of get_peers.py (class Peer, lines 12..30).
Field names follow the Python attributes; `key` and `proxy` are Option
because Python defaults them to None, and `port` stays a string exactly
as the ingestion regex produces it. -/
structure Peer where
  proto : String
  addr : String
  port : String
  region : String
  country : String
  is_alive : Bool
  latency : Int
  ping_latency : Int
  key : Option String
  network : String
  proxy : Option String
deriving DecidableEq, Repr

/-- Peer.__init__ (get_peers.py lines 13..30): every field is stored as
given, and ping_latency is initialised from the same latency argument
that initialises latency (lines 26..27). -/
def mkPeer (proto addr port region country : String) (is_alive : Bool)
    (latency : Int) (key : Option String) (network : String)
    (proxy : Option String) : Peer :=
  { proto := proto, addr := addr, port := port, region := region,
    country := country, is_alive := is_alive, latency := latency,
    ping_latency := latency, key := key, network := network, proxy := proxy }

/-- Peer.get_uri (get_peers.py lines 32..40). The returned Option models
the possible Python TypeError: when `key=True` and self.key is None the
condition `key and self.key != ''` is true and the concatenation
`uri+"?key="+self.key` raises, which we model as `none`. On the overlay
branch the f-string renders a None proxy as the text "None". -/
def Peer.get_uri (p : Peer) (key : Bool) : Option String :=
  if p.network = "internet" then
    let uri := p.proto ++ "://" ++ p.addr ++ ":" ++ p.port
    if key = true ∧ p.key ≠ some "" then
      match p.key with
      | some k => some (uri ++ "?key=" ++ k)
      | none => none
    else some uri
  else
    some ("socks://" ++ p.proxy.getD "None" ++ "/" ++ p.addr ++ "." ++
      p.network ++ ":" ++ p.port)

/-- The probe strategies phase 1 can dispatch to (parse_peers.py lines
193..210): the hidden-service SOCKS probe, the four clear-net probes, and
the unsupported-protocol fallthrough. -/
inductive ProbeKind where
  | hidden
  | tcp
  | tls
  | websocket
  | quic
  | unsupported
deriving DecidableEq, Repr

/-- The phase-1 dispatch of _test_endpoints (parse_peers.py lines
193..210): `if peer.network in [onion, b32.i2p]` selects the
hidden-service probe, otherwise the chain of `elif` tests on proto
selects a clear-net probe, with `unsupported` as the final else. -/
def selectProbe (network proto : String) : ProbeKind :=
  if network = "onion" ∨ network = "b32.i2p" then ProbeKind.hidden
  else if proto = "tcp" then ProbeKind.tcp
  else if proto = "tls" then ProbeKind.tls
  else if proto = "ws" ∨ proto = "wss" then ProbeKind.websocket
  else if proto = "quic" then ProbeKind.quic
  else ProbeKind.unsupported

/-- Outcome of the SOCKS connection attempt inside _test_hidden_service,
abstracting the network: the connect succeeds, or raises one of the three
distinguished proxy exception kinds, or raises something else. -/
inductive SocksOutcome where
  | ok
  | proxyConnErr (details : String)
  | generalProxyErr (details : String)
  | timeout
  | unexpectedErr (details : String)
deriving DecidableEq, Repr

/-- Python str.split with separator  given as a single colon, on the
character list of the string: used by _test_hidden_service to parse the
proxy string. -/
def splitColon : List Char → List (List Char)
  | [] => [[]]
  | c :: cs =>
    match splitColon cs with
    | [] => [[]]
    | g :: gs => if c = ':' then [] :: g :: gs else (c :: g) :: gs

/-- Nat value of a list of decimal digit characters, most significant
first. -/
def natOfDigits (l : List Char) : Nat :=
  l.foldl (fun acc c => acc * 10 + (c.toNat - '0'.toNat)) 0

/-- Python int() applied to a string, restricted to the plain forms an
optional minus sign followed by decimal digits (the ingestion grammar
produces only bare digit strings, so wider Python int syntax such as
surrounding whitespace never reaches this call). `none` models a raised
ValueError. -/
def pyInt : List Char → Option Int
  | '-' :: rest =>
    if rest ≠ [] ∧ rest.all Char.isDigit then some (-(natOfDigits rest : Int))
    else none
  | l =>
    if l ≠ [] ∧ l.all Char.isDigit then some (natOfDigits l : Int)
    else none

/-- The proxy parsing of _test_hidden_service (parse_peers.py lines
125..126): `proxy.split(':')[0]` and `int(proxy.split(':')[1])`. These
two lines sit BEFORE the try block, so a failure here is an exception
that escapes the function, modelled as Except.error (an IndexError when
the split has no second element, a ValueError when int() rejects it). -/
def parseProxyHostPort (proxy : String) : Except String (String × Int) :=
  match splitColon proxy.data with
  | [] => Except.error "IndexError: list index out of range"
  | [_] => Except.error "IndexError: list index out of range"
  | h :: p :: _ =>
    match pyInt p with
    | some n => Except.ok (String.mk h, n)
    | none => Except.error "ValueError: invalid literal for int() with base 10"

/-- _test_hidden_service (parse_peers.py lines 110..156). The proxy is
parsed outside the try block (an Except.error models the escaping
exception); once inside the try block every exception kind is caught and
mapped to `(false, message)`, with three distinguished proxy failure
messages, so the function returns Except.ok in all cases. -/
def test_hidden_service (proxy addr network : String) (port : Nat)
    (timeout : Nat) (outcome : SocksOutcome) : Except String (Bool × String) :=
  match parseProxyHostPort proxy with
  | Except.error e => Except.error e
  | Except.ok _ =>
    let full_address := addr ++ "." ++ network
    match outcome with
    | SocksOutcome.ok =>
      Except.ok (true, "✅ Success! Connection to " ++ full_address ++ ":" ++
        toString port ++ " was successful.")
    | SocksOutcome.proxyConnErr d =>
      Except.ok (false, "🚫 Proxy Error: Could not connect to the Tor or i2p proxy at " ++
        proxy ++ ". Is Tor or i2p  running?\n   Details: " ++ d)
    | SocksOutcome.generalProxyErr d =>
      Except.ok (false, "❌ Failure: Could not reach the hidden service " ++
        full_address ++ ".\n   Details: " ++ d)
    | SocksOutcome.timeout =>
      Except.ok (false, "❌ Timeout: Connection to " ++ full_address ++
        " timed out after " ++ toString timeout ++ " seconds.")
    | SocksOutcome.unexpectedErr d =>
      Except.ok (false, "An unexpected error occurred: " ++ d)

/-- Outcome of one icmplib async_ping call inside _ping: the target
answered with the given truncated average round-trip time, or it did not
answer (result.is_alive false), or the call raised (name resolution
failure, missing raw-socket privilege, ...). -/
inductive PingAttempt where
  | alive (avgRtt : Int)
  | dead
  | err
deriving DecidableEq, Repr

/-- True on the two non-answering outcomes of a ping attempt. -/
def PingAttempt.failed : PingAttempt → Bool
  | PingAttempt.alive _ => false
  | PingAttempt.dead => true
  | PingAttempt.err => true

/-- The two address-family attempts available to one _ping call: family
6 is tried first, family 4 on any failure of the first. -/
structure PingEnv where
  fam6 : PingAttempt
  fam4 : PingAttempt
deriving DecidableEq, Repr

/-- _ping (parse_peers.py lines 60..96). A non-internet network
short-circuits to ping_latency = 60000 before any attempt (lines
65..67, so the result cannot depend on the PingEnv). Otherwise the
family-6 attempt runs first; a live reply stores the truncated average
rtt; any failure (not alive, which the code turns into a raise, or an
exception) falls to the family-4 attempt; if that also fails the peer is
returned unchanged, and every exception is caught. The ipv6 bracket
stripping of lines 68..70 only rewrites the probe target, never a peer
field, and is therefore not visible in this state-level model. -/
def ping (peer : Peer) (env : PingEnv) : Peer :=
  if peer.network ≠ "internet" then { peer with ping_latency := 60000 }
  else
    match env.fam6 with
    | PingAttempt.alive rtt => { peer with ping_latency := rtt }
    | _ =>
      match env.fam4 with
      | PingAttempt.alive rtt => { peer with ping_latency := rtt }
      | _ => peer

/-- ping_peers (parse_peers.py lines 98..108): one _ping task per peer
with `peer.is_alive == True`, gathered with asyncio.gather, which
returns results in task-creation order regardless of completion order —
hence the list comprehension order is the output order. -/
def ping_peers (peers : List Peer) (penv : Peer → PingEnv) : List Peer :=
  (peers.filter fun p => p.is_alive == true).map fun p => ping p (penv p)

/-- Outcome of the one probe call phase 1 makes for a peer: the
(success, message) pair with the wall-clock elapsed milliseconds the
orchestrator measures around the call (message text is irrelevant to
every claim and omitted). -/
structure ProbeRes where
  success : Bool
  elapsedMs : Int
deriving DecidableEq, Repr

/-- Effect of one phase-1 iteration of _test_endpoints on its peer
(parse_peers.py lines 212..218): only on success are is_alive and
latency written; on failure the peer is untouched. -/
def peerAfterPhase1 (p : Peer) (r : ProbeRes) : Peer :=
  if r.success then { p with is_alive := true, latency := r.elapsedMs } else p

/-- The phase-1 sweep of _test_endpoints (parse_peers.py lines
178..219): peers are probed strictly in input order, and exactly the
successful ones are appended to the results list (line 218), already
mutated. `env i` abstracts the outcome of the probe call for the peer at
input position i. -/
def phase1Survivors (peers : List Peer) (env : Nat → ProbeRes) : List Peer :=
  peers.enum.filterMap fun ip =>
    if (env ip.1).success then some (peerAfterPhase1 ip.2 (env ip.1)) else none

/-- _test_endpoints (parse_peers.py lines 158..226): the phase-1 sweep
followed by `results = await ping_peers(results)` (line 224). -/
def test_endpoints (peers : List Peer) (env : Nat → ProbeRes)
    (penv : Peer → PingEnv) : List Peer :=
  ping_peers (phase1Survivors peers env) penv

/-- The ranking of main (parse_peers.py line 235):
`sorted(results, key=lambda peer: getattr(peer, "ping_latency"))`.
Python sorted is the stable ascending sort by the key, modelled by the
stable mergeSort on the numeric comparison of ping_latency with no other
case distinction. -/
def rank (peers : List Peer) : List Peer :=
  peers.mergeSort fun a b => decide (a.ping_latency ≤ b.ping_latency)

/-- main (parse_peers.py lines 228..252) without the printing: test the
endpoints, then rank by ping_latency. -/
def main_run (peers : List Peer) (env : Nat → ProbeRes)
    (penv : Peer → PingEnv) : List Peer :=
  rank (test_endpoints peers env penv)

/-- A peer with its ping_latency field forced to 0: equality of two
peers under this map says they agree on every field phase 2 may not
change. -/
def forgetPingLatency (p : Peer) : Peer := { p with ping_latency := 0 }

/-- Character class of the address group of the ingestion clear-net
regex (get_peers.py line 76): lowercase letters, digits, dot, hyphen,
colon and square brackets. -/
def isAddrChar (c : Char) : Bool :=
  c.isLower || c.isDigit || c == '.' || c == '-' || c == ':' || c == '[' || c == ']'

/-- Character class of the bracket expression written `[\?key=]` in the
ingestion clear-net regex. -/
def keyClassChar (c : Char) : Bool :=
  c == '?' || c == 'k' || c == 'e' || c == 'y' || c == '='

/-- Character class `[0-9a-f]` of the key group of the ingestion
clear-net regex. -/
def hexChar (c : Char) : Bool :=
  c.isDigit || (decide ('a' ≤ c) && decide (c ≤ 'f'))

/-- List-level startsWith: the first list is a leading segment of the
second. -/
def startsWithL : List Char → List Char → Bool
  | [], _ => true
  | _ :: _, [] => false
  | p :: ps, c :: cs => p == c && startsWithL ps cs

/-- One backtracking position of the address group: with `run` the
maximal address-class run at the current point and `rest0` what follows
it, try ending the group after k characters. The remainder must then
offer the literal colon, a nonempty greedy digit run (the port group),
the greedy `[\?key=]*` run and the greedy `[0-9a-f]*` run (the key
group); the match ends there, the regex being unanchored. -/
def splitCheck (run rest0 : List Char) (k : Nat) :
    Option (List Char × List Char × List Char × List Char) :=
  match run.drop k ++ rest0 with
  | [] => none
  | c :: t =>
    if c = ':' then
      let dg := t.takeWhile Char.isDigit
      if dg = [] then none
      else
        let t2 := t.drop dg.length
        let t3 := t2.drop (t2.takeWhile keyClassChar).length
        let kg := t3.takeWhile hexChar
        some (run.take k, dg, kg, t3.drop kg.length)
    else none

/-- Greedy backtracking over the address group length: longest first,
down to one character, as the regex engine does for `[...]+`. -/
def tryAddrSplit (run rest0 : List Char) :
    Nat → Option (List Char × List Char × List Char × List Char)
  | 0 => none
  | k + 1 =>
    match splitCheck run rest0 (k + 1) with
    | some r => some r
    | none => tryAddrSplit run rest0 k

/-- Match of the regex tail `([a-z0-9\.\-:\[\]]+):([0-9]+)[\?key=]*([0-9a-f]*)`
at the start of l, with leftmost-greedy semantics, returning the three
captured groups and the unconsumed remainder. -/
def matchTail (l : List Char) :
    Option (List Char × List Char × List Char × List Char) :=
  let run := l.takeWhile isAddrChar
  tryAddrSplit run (l.drop run.length) run.length

/-- The protocol alternation `(tcp|tls|quic|ws|wss|socks)` of the
ingestion clear-net regex, in the order the engine tries it. -/
def protoAlts : List (List Char) :=
  ["tcp".data, "tls".data, "quic".data, "ws".data, "wss".data, "socks".data]

/-- Try the protocol alternatives in order at the start of l: an
alternative is taken when its text plus the literal `://` is a leading
segment of l and the regex tail matches what follows; otherwise the
engine backtracks to the next alternative. Returns the four captured
groups (protocol, address, port, key) and the unconsumed remainder. -/
def matchAlts : List (List Char) → List Char →
    Option ((List Char × List Char × List Char × List Char) × List Char)
  | [], _ => none
  | q :: qs, l =>
    if startsWithL (q ++ [':', '/', '/']) l then
      match matchTail (l.drop (q.length + 3)) with
      | some (a, dg, kg, rest) => some ((q, a, dg, kg), rest)
      | none => matchAlts qs l
    else matchAlts qs l

/-- A full match of the ingestion clear-net regex starting exactly at
the head of l. -/
def matchAt (l : List Char) :
    Option ((List Char × List Char × List Char × List Char) × List Char) :=
  matchAlts protoAlts l

/-- The scan of re.findall: try a match at each position left to right,
resuming after the end of each match found. The fuel argument only
bounds the recursion and exceeds the list length at every call from
clearnetFindall. -/
def findallAux : Nat → List Char → List (List Char × List Char × List Char × List Char)
  | 0, _ => []
  | _, [] => []
  | fuel + 1, c :: cs =>
    match matchAt (c :: cs) with
    | some (g, rest) => g :: findallAux fuel rest
    | none => findallAux fuel cs

/-- compiled_regex.findall of get_peers.py (lines 76..77, used at line
137): all matches of the clear-net peer regex in a line, each as its
tuple of four captured groups. -/
def clearnetFindall (s : String) :
    List (List Char × List Char × List Char × List Char) :=
  findallAux (s.data.length + 1) s.data

/-- Concrete overlay peer used to instantiate theorems. -/
def onionPeer : Peer :=
  mkPeer "tcp" "abcdefghij" "80" "hidden" "unknown" true (-1) none "onion"
    (some "127.0.0.1:9050")

/-- Concrete internet peer used to instantiate theorems. -/
def netPeer : Peer :=
  mkPeer "tcp" "203.0.113.5" "9001" "europe" "germany" true (-1) (some "")
    "internet" none

/-- Concrete internet peer that failed phase 1. -/
def deadPeer : Peer :=
  mkPeer "tls" "198.51.100.7" "443" "asia" "japan" false (-1) (some "")
    "internet" none

/-- A ping environment where both address families answer. -/
def envBothAlive : PingEnv := { fam6 := PingAttempt.alive 12, fam4 := PingAttempt.alive 25 }

/-- A ping environment where both address families fail. -/
def envBothFail : PingEnv := { fam6 := PingAttempt.dead, fam4 := PingAttempt.err }

/-- A phase-1 probe environment where every probe fails. -/
def envAllFail : Nat → ProbeRes := fun _ => { success := false, elapsedMs := 0 }

/-- Concrete internet peer carrying a nonempty key. -/
def keyPeer : Peer :=
  mkPeer "tls" "9.9.9.9" "443" "europe" "france" false (-1) (some "abcd")
    "internet" none

/-! ## Helper lemmas -/

/-- ping never changes any field except ping_latency. -/
theorem ping_forgetPingLatency (p : Peer) (env : PingEnv) :
    forgetPingLatency (ping p env) = forgetPingLatency p := by
  unfold ping
  by_cases h : p.network = "internet"
  · rw [if_neg (by simpa using h)]
    cases env.fam6 <;> cases env.fam4 <;> rfl
  · rw [if_pos (by simpa using h)]
    rfl

/-- ping preserves is_alive. -/
theorem ping_is_alive (p : Peer) (env : PingEnv) :
    (ping p env).is_alive = p.is_alive := by
  have h := congrArg Peer.is_alive (ping_forgetPingLatency p env)
  simpa [forgetPingLatency] using h

/-- ping preserves network. -/
theorem ping_network (p : Peer) (env : PingEnv) :
    (ping p env).network = p.network := by
  have h := congrArg Peer.network (ping_forgetPingLatency p env)
  simpa [forgetPingLatency] using h

/-- Every member of the output of ping_peers has is_alive true. -/
theorem mem_ping_peers_is_alive (peers : List Peer) (penv : Peer → PingEnv)
    (q : Peer) (hq : q ∈ ping_peers peers penv) : q.is_alive = true := by
  unfold ping_peers at hq
  obtain ⟨p, hp, rfl⟩ := List.mem_map.mp hq
  have hpa : p.is_alive = true := by
    have := List.of_mem_filter hp
    simpa using this
  rw [ping_is_alive, hpa]

/-! ## Claim theorems -/

/-- C1 counterexample: the descriptor network value b32xi2p (producible by
the ingestion grammar, whose overlay-suffix alternative b32.i2p contains
an unescaped regex dot) is not internet, yet phase 1 dispatches its
nominal protocol tcp to the clear-net TCP probe, not to the
hidden-service probe. -/
theorem dispatch_other_overlay_cex :
    selectProbe "b32xi2p" "tcp" = ProbeKind.tcp ∧
    ("b32xi2p" : String) ≠ "internet" ∧
    ProbeKind.tcp ≠ ProbeKind.hidden := by decide

/-- C1 amended: phase 1 invokes the hidden-service probe exactly when
the network field is onion or b32.i2p, regardless of the nominal
protocol; every other network value (internet or any other overlay
suffix) goes to the clear-net dispatch on protocol. -/
theorem dispatch_hidden_iff_known_overlay (network proto : String) :
    (selectProbe network proto = ProbeKind.hidden ↔
      network = "onion" ∨ network = "b32.i2p") ∧
    (network ≠ "onion" → network ≠ "b32.i2p" →
      selectProbe network proto =
        if proto = "tcp" then ProbeKind.tcp
        else if proto = "tls" then ProbeKind.tls
        else if proto = "ws" ∨ proto = "wss" then ProbeKind.websocket
        else if proto = "quic" then ProbeKind.quic
        else ProbeKind.unsupported) := by
  constructor
  · constructor
    · intro h
      by_contra hc
      push_neg at hc
      unfold selectProbe at h
      rw [if_neg (by tauto)] at h
      split at h
      · exact ProbeKind.noConfusion h
      · split at h
        · exact ProbeKind.noConfusion h
        · split at h
          · exact ProbeKind.noConfusion h
          · split at h
            · exact ProbeKind.noConfusion h
            · exact ProbeKind.noConfusion h
    · intro h
      unfold selectProbe
      rw [if_pos h]
  · intro h1 h2
    unfold selectProbe
    rw [if_neg (by tauto)]

/-- C3: for a peer whose network is not internet, the ping operation
sets ping_latency to exactly 60000 and its result does not depend on the
ping environment (no network I/O is consulted); consequently every
member of the phase-2 output whose network is not internet carries
ping_latency 60000. -/
theorem overlay_ping_sentinel_60000 (p : Peer) (e e2 : PingEnv)
    (h : p.network ≠ "internet") :
    (ping p e).ping_latency = 60000 ∧ ping p e = ping p e2 ∧
    ∀ (peers : List Peer) (penv : Peer → PingEnv) (q : Peer),
      q ∈ ping_peers peers penv → q.network ≠ "internet" →
      q.ping_latency = 60000 := by
  refine ⟨?_, ?_, ?_⟩
  · unfold ping
    rw [if_pos h]
  · unfold ping
    rw [if_pos h, if_pos h]
  · intro peers penv q hq hnet
    unfold ping_peers at hq
    obtain ⟨r, _, rfl⟩ := List.mem_map.mp hq
    rw [ping_network] at hnet
    unfold ping
    rw [if_pos hnet]

/-- C3 witness: the overlay sample peer gets ping_latency 60000 from
ping, whatever the environment. -/
theorem overlay_ping_sentinel_60000_witness :
    (ping onionPeer envBothAlive).ping_latency = 60000 ∧
    ping onionPeer envBothAlive = ping onionPeer envBothFail ∧
    ∀ (peers : List Peer) (penv : Peer → PingEnv) (q : Peer),
      q ∈ ping_peers peers penv → q.network ≠ "internet" →
      q.ping_latency = 60000 :=
  overlay_ping_sentinel_60000 onionPeer envBothAlive envBothFail (by decide)

/-- C7: for an internet peer whose family-6 and family-4 ping attempts
both fail, ping returns the peer completely unchanged (in particular
ping_latency keeps its prior sentinel, and being a total function the
model lets no exception escape). -/
theorem internet_ping_both_fail_sentinel (p : Peer) (e : PingEnv)
    (hnet : p.network = "internet") (h6 : e.fam6.failed = true)
    (h4 : e.fam4.failed = true) (hprior : p.ping_latency = -1) :
    ping p e = p ∧ (ping p e).ping_latency = -1 := by
  have hp : ping p e = p := by
    unfold ping
    rw [if_neg (by simp [hnet])]
    cases he6 : e.fam6 with
    | alive rtt => rw [he6] at h6; simp [PingAttempt.failed] at h6
    | dead =>
      cases he4 : e.fam4 with
      | alive rtt => rw [he4] at h4; simp [PingAttempt.failed] at h4
      | dead => rfl
      | err => rfl
    | err =>
      cases he4 : e.fam4 with
      | alive rtt => rw [he4] at h4; simp [PingAttempt.failed] at h4
      | dead => rfl
      | err => rfl
  exact ⟨hp, by rw [hp, hprior]⟩

/-- C7 witness: the internet sample peer is returned unchanged when both
address families fail. -/
theorem internet_ping_both_fail_sentinel_witness :
    ping netPeer envBothFail = netPeer ∧
    (ping netPeer envBothFail).ping_latency = -1 :=
  internet_ping_both_fail_sentinel netPeer envBothFail (by decide) (by decide)
    (by decide) (by decide)

/-- C9: ping_peers returns exactly the is_alive peers of its input, in
the input order, each changed only in its ping_latency field; the
completion order of the gathered tasks is immaterial because
asyncio.gather returns results in task-creation order, which the model
embeds as an order-preserving map. -/
theorem ping_peers_preserves_order (peers : List Peer) (penv : Peer → PingEnv) :
    (ping_peers peers penv).map forgetPingLatency =
      (peers.filter fun p => p.is_alive == true).map forgetPingLatency := by
  unfold ping_peers
  rw [List.map_map]
  apply List.map_congr_left
  intro p _
  exact ping_forgetPingLatency p (penv p)

/-- C10: the Peer constructor stores the latency argument into both
latency and ping_latency, so ping_latency starts at -1 exactly when the
latency argument (whose Python default is -1) is -1. -/
theorem peer_init_ping_latency (proto addr port region country : String)
    (ia : Bool) (L : Int) (key : Option String) (network : String)
    (proxy : Option String) :
    (mkPeer proto addr port region country ia L key network proxy).latency = L ∧
    (mkPeer proto addr port region country ia L key network proxy).ping_latency = L ∧
    ((mkPeer proto addr port region country ia L key network proxy).ping_latency = -1
      ↔ L = -1) :=
  ⟨rfl, rfl, Iff.rfl⟩

/-- The proxy-unreachable message never equals the
hidden-service-unreachable message, whatever the interpolated parts. -/
theorem proxyMsg_ne_generalMsg (x y u v : String) :
    "🚫 Proxy Error: Could not connect to the Tor or i2p proxy at " ++ x ++
      ". Is Tor or i2p  running?\n   Details: " ++ y ≠
    "❌ Failure: Could not reach the hidden service " ++ u ++
      ".\n   Details: " ++ v := by
  intro h
  have h2 := congrArg String.data h
  simp only [String.data_append, List.append_assoc] at h2
  simp only [List.cons_append, List.cons.injEq] at h2
  exact absurd h2.1 (by decide)

/-- The proxy-unreachable message never equals the timeout message,
whatever the interpolated parts. -/
theorem proxyMsg_ne_timeoutMsg (x y u v : String) :
    "🚫 Proxy Error: Could not connect to the Tor or i2p proxy at " ++ x ++
      ". Is Tor or i2p  running?\n   Details: " ++ y ≠
    "❌ Timeout: Connection to " ++ u ++ " timed out after " ++ v ++ " seconds." := by
  intro h
  have h2 := congrArg String.data h
  simp only [String.data_append, List.append_assoc] at h2
  simp only [List.cons_append, List.cons.injEq] at h2
  exact absurd h2.1 (by decide)

/-- The hidden-service-unreachable message never equals the timeout
message, whatever the interpolated parts. -/
theorem generalMsg_ne_timeoutMsg (x y u v : String) :
    "❌ Failure: Could not reach the hidden service " ++ x ++
      ".\n   Details: " ++ y ≠
    "❌ Timeout: Connection to " ++ u ++ " timed out after " ++ v ++ " seconds." := by
  intro h
  have h2 := congrArg String.data h
  simp only [String.data_append, List.append_assoc] at h2
  simp only [List.cons_append, List.cons.injEq] at h2
  exact absurd h2.2.2.1 (by decide)

/-- C2 counterexample: a proxy string without a colon (producible in the
pipeline, and a fortiori for an arbitrary proxy string the claim
quantifies over) makes _test_hidden_service raise an IndexError from
`proxy.split(':')[1]` before its try block, so the exception propagates
to the phase-1 loop instead of a (false, message) return. -/
theorem hidden_service_parse_raises_cex :
    test_hidden_service "localhost" "abcdefghij" "onion" 80 30
      SocksOutcome.timeout =
      Except.error "IndexError: list index out of range" := rfl

/-- C2 amended: once the proxy string parses (split at the first colon
with an integer second part), the probe always returns Except.ok — every
internal fault becomes success=false with a message, no exception
escapes — and the three failure subkinds carry pairwise distinct
messages; a proxy string the parse rejects instead raises outward. -/
theorem hidden_service_no_raise_after_parse (proxy addr network : String)
    (port timeout : Nat) (outcome : SocksOutcome)
    (hp : ∃ hpp, parseProxyHostPort proxy = Except.ok hpp) :
    (∃ b m, test_hidden_service proxy addr network port timeout outcome =
      Except.ok (b, m)) ∧
    (outcome ≠ SocksOutcome.ok →
      ∃ m, test_hidden_service proxy addr network port timeout outcome =
        Except.ok (false, m)) ∧
    (∀ d1 d2,
      test_hidden_service proxy addr network port timeout (SocksOutcome.proxyConnErr d1) ≠
      test_hidden_service proxy addr network port timeout (SocksOutcome.generalProxyErr d2)) ∧
    (∀ d1,
      test_hidden_service proxy addr network port timeout (SocksOutcome.proxyConnErr d1) ≠
      test_hidden_service proxy addr network port timeout SocksOutcome.timeout) ∧
    (∀ d2,
      test_hidden_service proxy addr network port timeout (SocksOutcome.generalProxyErr d2) ≠
      test_hidden_service proxy addr network port timeout SocksOutcome.timeout) := by
  obtain ⟨hpp, hok⟩ := hp
  unfold test_hidden_service
  rw [hok]
  refine ⟨?_, ?_, ?_, ?_, ?_⟩
  · cases outcome <;> exact ⟨_, _, rfl⟩
  · intro hne
    cases outcome with
    | ok => exact absurd rfl hne
    | proxyConnErr d => exact ⟨_, rfl⟩
    | generalProxyErr d => exact ⟨_, rfl⟩
    | timeout => exact ⟨_, rfl⟩
    | unexpectedErr d => exact ⟨_, rfl⟩
  · intro d1 d2 h
    simp only [Except.ok.injEq, Prod.mk.injEq] at h
    exact proxyMsg_ne_generalMsg proxy d1 (addr ++ "." ++ network) d2 h.2
  · intro d1 h
    simp only [Except.ok.injEq, Prod.mk.injEq] at h
    exact proxyMsg_ne_timeoutMsg proxy d1 (addr ++ "." ++ network)
      (toString timeout) h.2
  · intro d2 h
    simp only [Except.ok.injEq, Prod.mk.injEq] at h
    exact generalMsg_ne_timeoutMsg (addr ++ "." ++ network) d2
      (addr ++ "." ++ network) (toString timeout) h.2

/-- C2 witness: with the well-formed proxy 127.0.0.1:9050 the probe
returns Except.ok on every outcome, failure outcomes return
success=false, and the three failure messages are pairwise distinct. -/
theorem hidden_service_no_raise_witness :
    (∃ b m, test_hidden_service "127.0.0.1:9050" "abcdefghij" "onion" 80 30
      SocksOutcome.timeout = Except.ok (b, m)) ∧
    (SocksOutcome.timeout ≠ SocksOutcome.ok →
      ∃ m, test_hidden_service "127.0.0.1:9050" "abcdefghij" "onion" 80 30
        SocksOutcome.timeout = Except.ok (false, m)) ∧
    (∀ d1 d2,
      test_hidden_service "127.0.0.1:9050" "abcdefghij" "onion" 80 30
        (SocksOutcome.proxyConnErr d1) ≠
      test_hidden_service "127.0.0.1:9050" "abcdefghij" "onion" 80 30
        (SocksOutcome.generalProxyErr d2)) ∧
    (∀ d1,
      test_hidden_service "127.0.0.1:9050" "abcdefghij" "onion" 80 30
        (SocksOutcome.proxyConnErr d1) ≠
      test_hidden_service "127.0.0.1:9050" "abcdefghij" "onion" 80 30
        SocksOutcome.timeout) ∧
    (∀ d2,
      test_hidden_service "127.0.0.1:9050" "abcdefghij" "onion" 80 30
        (SocksOutcome.generalProxyErr d2) ≠
      test_hidden_service "127.0.0.1:9050" "abcdefghij" "onion" 80 30
        SocksOutcome.timeout) :=
  hidden_service_no_raise_after_parse "127.0.0.1:9050" "abcdefghij" "onion"
    80 30 SocksOutcome.timeout ⟨("127.0.0.1", 9050), rfl⟩

/-- C8 counterexample: an internet peer whose key is absent (None) does
not get the bare URI from get_uri with key display requested — the
Python condition `key and self.key != ''` is true for None, and the
concatenation raises a TypeError (modelled none). -/
theorem get_uri_none_key_cex :
    (mkPeer "tcp" "1.2.3.4" "80" "r" "c" false (-1) none "internet" none).get_uri true
      = none ∧
    (mkPeer "tcp" "1.2.3.4" "80" "r" "c" false (-1) none "internet" none).get_uri true
      ≠ some "tcp://1.2.3.4:80" := by
  exact ⟨rfl, by decide⟩

/-- C8 amended: for an internet peer, get_uri with key display requested
appends the key suffix exactly when the stored key is a nonempty string,
returns the bare URI when the stored key is the empty string, and raises
a TypeError (modelled none) when the key is absent; without key display
the bare URI is always returned and the suffix is never appended. -/
theorem get_uri_key_display (p : Peer) (hnet : p.network = "internet") :
    (∀ k, p.key = some k → k ≠ "" →
      p.get_uri true =
        some (p.proto ++ "://" ++ p.addr ++ ":" ++ p.port ++ "?key=" ++ k)) ∧
    (p.key = some "" →
      p.get_uri true = some (p.proto ++ "://" ++ p.addr ++ ":" ++ p.port)) ∧
    (p.key = none → p.get_uri true = none) ∧
    p.get_uri false = some (p.proto ++ "://" ++ p.addr ++ ":" ++ p.port) := by
  refine ⟨?_, ?_, ?_, ?_⟩
  · intro k hk hne
    unfold Peer.get_uri
    rw [if_pos hnet, if_pos ⟨rfl, by simp [hk, hne]⟩, hk]
  · intro hk
    unfold Peer.get_uri
    rw [if_pos hnet, if_neg (by simp [hk])]
  · intro hk
    unfold Peer.get_uri
    rw [if_pos hnet, if_pos ⟨rfl, by simp [hk]⟩, hk]
  · unfold Peer.get_uri
    rw [if_pos hnet, if_neg (by simp)]

/-- C8 witness: the sample internet peer with key abcd gets the key
suffix exactly as described. -/
theorem get_uri_key_display_witness :
    (∀ k, keyPeer.key = some k → k ≠ "" →
      keyPeer.get_uri true =
        some (keyPeer.proto ++ "://" ++ keyPeer.addr ++ ":" ++ keyPeer.port ++
          "?key=" ++ k)) ∧
    (keyPeer.key = some "" →
      keyPeer.get_uri true =
        some (keyPeer.proto ++ "://" ++ keyPeer.addr ++ ":" ++ keyPeer.port)) ∧
    (keyPeer.key = none → keyPeer.get_uri true = none) ∧
    keyPeer.get_uri false =
      some (keyPeer.proto ++ "://" ++ keyPeer.addr ++ ":" ++ keyPeer.port) :=
  get_uri_key_display keyPeer rfl

/-- C4: a descriptor that is not alive after phase 1 (its probe failed,
so phase 1 left every field unchanged) is never in the output of
ping_peers — phase 2 builds its task list only from is_alive peers and
ping preserves is_alive — and never in the ranked output of the full
run. -/
theorem dead_peer_frame_and_excluded (p : Peer) (h : p.is_alive = false) :
    (∀ r : ProbeRes, r.success = false → peerAfterPhase1 p r = p) ∧
    (∀ (peers : List Peer) (penv : Peer → PingEnv), p ∉ ping_peers peers penv) ∧
    (∀ (peers : List Peer) (env : Nat → ProbeRes) (penv : Peer → PingEnv),
      p ∉ main_run peers env penv) := by
  refine ⟨?_, ?_, ?_⟩
  · intro r hr
    unfold peerAfterPhase1
    rw [if_neg (by simp [hr])]
  · intro peers penv hmem
    have halive := mem_ping_peers_is_alive peers penv p hmem
    rw [h] at halive
    exact absurd halive (by decide)
  · intro peers env penv hmem
    unfold main_run rank at hmem
    have hperm := List.mergeSort_perm (test_endpoints peers env penv)
      (fun a b => decide (a.ping_latency ≤ b.ping_latency))
    have hmem2 : p ∈ test_endpoints peers env penv := hperm.mem_iff.mp hmem
    unfold test_endpoints at hmem2
    have halive := mem_ping_peers_is_alive _ _ p hmem2
    rw [h] at halive
    exact absurd halive (by decide)

/-- C4 witness: the sample failed peer is untouched by a failing probe
and absent from phase 2 and from the ranked output. -/
theorem dead_peer_frame_and_excluded_witness :
    (∀ r : ProbeRes, r.success = false → peerAfterPhase1 deadPeer r = deadPeer) ∧
    (∀ (peers : List Peer) (penv : Peer → PingEnv),
      deadPeer ∉ ping_peers peers penv) ∧
    (∀ (peers : List Peer) (env : Nat → ProbeRes) (penv : Peer → PingEnv),
      deadPeer ∉ main_run peers env penv) :=
  dead_peer_frame_and_excluded deadPeer rfl

/-- The ranking comparison is transitive. -/
theorem pingLE_trans : ∀ a b c : Peer,
    decide (a.ping_latency ≤ b.ping_latency) = true →
    decide (b.ping_latency ≤ c.ping_latency) = true →
    decide (a.ping_latency ≤ c.ping_latency) = true := by
  intro a b c h1 h2
  simp only [decide_eq_true_eq] at h1 h2 ⊢
  omega

/-- The ranking comparison is total. -/
theorem pingLE_total : ∀ a b : Peer,
    (decide (a.ping_latency ≤ b.ping_latency) ||
     decide (b.ping_latency ≤ a.ping_latency)) = true := by
  intro a b
  simp only [Bool.or_eq_true, decide_eq_true_eq]
  omega

/-- rank output is sorted ascending by ping_latency. -/
theorem rank_sorted (l : List Peer) :
    List.Sorted (fun a b : Peer => a.ping_latency ≤ b.ping_latency) (rank l) := by
  have h := @List.sorted_mergeSort Peer
    (fun a b => decide (a.ping_latency ≤ b.ping_latency))
    pingLE_trans pingLE_total l
  exact h.imp (fun hab => by simpa using hab)

/-- rank is idempotent. -/
theorem rank_idem (l : List Peer) : rank (rank l) = rank l := by
  have h := @List.sorted_mergeSort Peer
    (fun a b => decide (a.ping_latency ≤ b.ping_latency))
    pingLE_trans pingLE_total l
  exact List.mergeSort_of_sorted h

/-- Stability of rank, filter formulation: restricted to any one key
value, the ranked list is the input list. -/
theorem rank_filter_key (l : List Peer) (k : Int) :
    (rank l).filter (fun p => p.ping_latency == k) =
      l.filter (fun p => p.ping_latency == k) := by
  induction l with
  | nil => simp [rank]
  | cons a l ih =>
    obtain ⟨l₁, l₂, h1, h2, h3⟩ := @List.mergeSort_cons Peer
      (fun a b => decide (a.ping_latency ≤ b.ping_latency))
      pingLE_trans pingLE_total a l
    have hrank : rank (a :: l) = l₁ ++ a :: l₂ := h1
    have hrl : rank l = l₁ ++ l₂ := h2
    rw [hrank, List.filter_append]
    by_cases hk : a.ping_latency = k
    · have hl1 : l₁.filter (fun p => p.ping_latency == k) = [] := by
        rw [List.filter_eq_nil_iff]
        intro b hb
        have h3b := h3 b hb
        simp only [Bool.not_eq_eq_eq_not, Bool.not_true] at h3b
        have hblt := of_decide_eq_false h3b
        simp only [beq_iff_eq]
        omega
      rw [hl1, List.nil_append, List.filter_cons, List.filter_cons,
        if_pos (by simp [hk]), if_pos (by simp [hk])]
      congr 1
      rw [← ih, hrl, List.filter_append, hl1, List.nil_append]
    · rw [List.filter_cons, List.filter_cons, if_neg (by simp [hk]),
        if_neg (by simp [hk]), ← ih, hrl, List.filter_append]

/-- C5: the final ranking of main is a stable ascending sort keyed by
ping_latency and nothing else: its output is sorted by the plain numeric
order (sentinels -1 and 60000 included, with no special-casing), it is a
permutation of its input, re-ranking a ranked list returns it unchanged,
and for every key value the ranked list restricted to that value is the
input restricted to it — ties keep the input order. -/
theorem ranking_stable_sorted_idempotent :
    (∀ l : List Peer,
      List.Sorted (fun a b : Peer => a.ping_latency ≤ b.ping_latency) (rank l)) ∧
    (∀ l : List Peer, rank (rank l) = rank l) ∧
    (∀ (l : List Peer) (k : Int),
      (rank l).filter (fun p => p.ping_latency == k) =
        l.filter (fun p => p.ping_latency == k)) ∧
    (∀ l : List Peer, (rank l).Perm l) :=
  ⟨rank_sorted, rank_idem, rank_filter_key, fun l => List.mergeSort_perm l _⟩

/-- One unfolding step of the greedy address-length descent. -/
theorem tryAddrSplit_succ (run rest0 : List Char) (k : Nat) :
    tryAddrSplit run rest0 (k + 1) =
      match splitCheck run rest0 (k + 1) with
      | some r => some r
      | none => tryAddrSplit run rest0 k := rfl

/-- A decimal digit lies in the address character class. -/
theorem digit_isAddrChar (c : Char) (h : c.isDigit = true) : isAddrChar c = true := by
  simp [isAddrChar, h]

/-- Ending the address group exactly at the separating colon succeeds,
and captures the whole digit run as the port with an empty key group. -/
theorem splitCheck_at_len (A N : List Char) (hN : N ≠ [])
    (hNd : ∀ c ∈ N, c.isDigit = true) :
    splitCheck (A ++ ':' :: N) [] A.length = some (A, N, [], []) := by
  unfold splitCheck
  rw [List.append_nil, List.drop_left]
  simp only []
  rw [if_pos trivial]
  rw [List.takeWhile_eq_self_iff.mpr hNd]
  rw [if_neg hN]
  rw [List.drop_length, List.take_left]
  rfl

/-- Ending the address group anywhere beyond the separating colon fails:
the remainder starts inside the digit run (or past the end), never with
a colon followed by a digit. -/
theorem splitCheck_above (A N : List Char)
    (hNd : ∀ c ∈ N, c.isDigit = true) (j : Nat) :
    splitCheck (A ++ ':' :: N) [] (A.length + 1 + j) = none := by
  unfold splitCheck
  rw [List.append_nil]
  have hd : (A ++ ':' :: N).drop (A.length + 1 + j) = N.drop j := by
    rw [List.append_cons A ':' N, ← List.drop_drop]
    have h1 : (A ++ [':']).length = A.length + 1 := by simp
    rw [← h1, List.drop_left]
  rw [hd]
  cases hcase : N.drop j with
  | nil => rfl
  | cons c t =>
    have hc : c.isDigit = true := by
      apply hNd
      apply List.mem_of_mem_drop
      rw [hcase]
      exact List.mem_cons_self c t
    have hcne : ¬(c = ':') := by
      intro heq
      rw [heq] at hc
      exact absurd hc (by decide)
    simp only []
    rw [if_neg hcne]

/-- The greedy descent from any length at or above the separating colon
lands on the split at the colon. -/
theorem tryAddrSplit_step (a : Char) (A' : List Char) (n : Char) (N' : List Char)
    (hNd : ∀ c ∈ n :: N', c.isDigit = true) :
    ∀ j, tryAddrSplit ((a :: A') ++ ':' :: n :: N') [] ((a :: A').length + 1 + j) =
      some (a :: A', n :: N', [], []) := by
  intro j
  induction j with
  | zero =>
    have h0 := splitCheck_above (a :: A') (n :: N') hNd 0
    simp only [Nat.add_zero] at h0 ⊢
    rw [tryAddrSplit_succ, h0]
    have h1 := splitCheck_at_len (a :: A') (n :: N') (by simp) hNd
    show tryAddrSplit ((a :: A') ++ ':' :: n :: N') [] (a :: A').length =
      some (a :: A', n :: N', [], [])
    rw [show (a :: A').length = A'.length + 1 from rfl]
    rw [tryAddrSplit_succ]
    rw [show A'.length + 1 = (a :: A').length from rfl, h1]
  | succ j ih =>
    have e : (a :: A').length + 1 + (j + 1) = ((a :: A').length + 1 + j) + 1 := by omega
    rw [e, tryAddrSplit_succ]
    have h0 := splitCheck_above (a :: A') (n :: N') hNd (j + 1)
    rw [e] at h0
    rw [h0]
    exact ih

/-- Greedy match of the regex tail on a canonical address:port text: the
address group gets exactly the address, the port group exactly the
digits, the key group is empty and nothing is left over. -/
theorem matchTail_canonical (a : Char) (A' : List Char) (n : Char) (N' : List Char)
    (hAc : ∀ c ∈ a :: A', isAddrChar c = true)
    (hNd : ∀ c ∈ n :: N', c.isDigit = true) :
    matchTail ((a :: A') ++ ':' :: n :: N') = some (a :: A', n :: N', [], []) := by
  have hall : ∀ c ∈ (a :: A') ++ ':' :: n :: N', isAddrChar c = true := by
    intro c hc
    rcases List.mem_append.mp hc with h | h
    · exact hAc c h
    · rcases List.mem_cons.mp h with rfl | h2
      · decide
      · exact digit_isAddrChar c (hNd c h2)
  have hrun : ((a :: A') ++ ':' :: n :: N').takeWhile isAddrChar =
      (a :: A') ++ ':' :: n :: N' := List.takeWhile_eq_self_iff.mpr hall
  simp only [matchTail]
  rw [hrun, List.drop_length]
  have e : ((a :: A') ++ ':' :: n :: N').length = (a :: A').length + 1 + (N'.length + 1) := by
    simp [List.length_append]
    omega
  rw [e]
  exact tryAddrSplit_step a A' n N' hNd (N'.length + 1)

/-- A full regex match at the head of a canonical URI: the alternation
settles on the protocol the URI was printed from (earlier alternatives
fail on the literal colon-slash-slash), and the tail groups are the
address, the digits and an empty key. -/
theorem matchAt_canonical (P : List Char) (a : Char) (A' : List Char)
    (n : Char) (N' : List Char)
    (hP : P = "tcp".data ∨ P = "tls".data ∨ P = "quic".data ∨
      P = "ws".data ∨ P = "wss".data)
    (hAc : ∀ c ∈ a :: A', isAddrChar c = true)
    (hNd : ∀ c ∈ n :: N', c.isDigit = true) :
    matchAt (P ++ ':' :: '/' :: '/' :: ((a :: A') ++ ':' :: n :: N')) =
      some ((P, a :: A', n :: N', []), []) := by
  have hm := matchTail_canonical a A' n N' hAc hNd
  simp only [List.cons_append] at hm
  rcases hP with rfl | rfl | rfl | rfl | rfl <;>
    simp [matchAt, protoAlts, matchAlts, startsWithL, hm]

/-- The findall scan returns nothing on an empty remainder. -/
theorem findallAux_nil (fuel : Nat) : findallAux fuel [] = [] := by
  cases fuel <;> rfl

/-- A successful match at the scan position contributes its groups and
the scan resumes after the match. -/
theorem findallAux_step (fuel : Nat) (l : List Char)
    (g : List Char × List Char × List Char × List Char) (rest : List Char)
    (h : matchAt l = some (g, rest)) (hne : l ≠ []) :
    findallAux (fuel + 1) l = g :: findallAux fuel rest := by
  obtain ⟨c, cs, rfl⟩ := List.exists_cons_of_ne_nil hne
  simp only [findallAux]
  rw [h]

/-- C6: an internet descriptor as the ingestion grammar produces it
(protocol one of the five clear-net tags, nonempty address over the
address class, nonempty digit port) re-parses from its canonical URI
through the ingestion clear-net regex to exactly one match whose
protocol, address (brackets included when present) and port groups are
the descriptor fields. -/
theorem internet_uri_roundtrip (p : Peer) (hnet : p.network = "internet")
    (hproto : p.proto = "tcp" ∨ p.proto = "tls" ∨ p.proto = "quic" ∨
      p.proto = "ws" ∨ p.proto = "wss")
    (hAne : p.addr.data ≠ []) (hAc : ∀ c ∈ p.addr.data, isAddrChar c = true)
    (hNne : p.port.data ≠ []) (hNd : ∀ c ∈ p.port.data, c.isDigit = true) :
    ∃ u, p.get_uri false = some u ∧
      clearnetFindall u = [(p.proto.data, p.addr.data, p.port.data, [])] := by
  refine ⟨p.proto ++ "://" ++ p.addr ++ ":" ++ p.port, ?_, ?_⟩
  · unfold Peer.get_uri
    rw [if_pos hnet, if_neg (by simp)]
  · obtain ⟨a, A', hA⟩ := List.exists_cons_of_ne_nil hAne
    obtain ⟨n, N', hN⟩ := List.exists_cons_of_ne_nil hNne
    have hP5 : p.proto.data = "tcp".data ∨ p.proto.data = "tls".data ∨
        p.proto.data = "quic".data ∨ p.proto.data = "ws".data ∨
        p.proto.data = "wss".data := by
      rcases hproto with h | h | h | h | h <;> simp [h]
    have hdata : (p.proto ++ "://" ++ p.addr ++ ":" ++ p.port).data
        = p.proto.data ++ ':' :: '/' :: '/' :: (p.addr.data ++ ':' :: p.port.data) := by
      simp only [String.data_append, List.append_assoc, List.cons_append,
        List.nil_append]
    unfold clearnetFindall
    rw [hdata, hA, hN]
    have hm := matchAt_canonical p.proto.data a A' n N' hP5 (hA ▸ hAc) (hN ▸ hNd)
    rw [findallAux_step _ _ _ _ hm (by simp), findallAux_nil]

/-- C6 witness: the sample internet peer tcp://203.0.113.5:9001
round-trips through the ingestion regex. -/
theorem internet_uri_roundtrip_witness :
    ∃ u, netPeer.get_uri false = some u ∧
      clearnetFindall u =
        [(netPeer.proto.data, netPeer.addr.data, netPeer.port.data, [])] :=
  internet_uri_roundtrip netPeer rfl (Or.inl rfl) (by decide) (by decide)
    (by decide) (by decide)
